import Mathlib

/-!
Shallow embedding of the frida-gum code allocator (src/gum/gumcodeallocator.c)
and the Linux thread-control backend (src/gum/backend-linux/gumprocess-linux.c),
with theorems settling the specification claims about them.

Machine pointers are modelled as Nat (gsize / gpointer); signed quantities
(gssize) as Int with explicit casts where the C source casts. External
collaborators (page allocation, ptrace, the assembly emitter) are modelled as
oracles: explicit parameters carrying the value the collaborator would return.
-/

namespace FridaGum

/-- GumAddressSpec: a near-allocation constraint (near_address, max_distance). -/
structure GumAddressSpec where
  near_address : Nat
  max_distance : Nat
deriving DecidableEq

/-- GumCodeSlice: a fixed-size executable unit (data pointer and size). -/
structure GumCodeSlice where
  data : Nat
  size : Nat
deriving DecidableEq

/-- gum_code_slice_is_near (gumcodeallocator.c:336-357): both the first and the
last byte of the slice must lie within max_distance of near_address; a NULL
spec accepts every slice. Distances are computed in gssize arithmetic. -/
def gum_code_slice_is_near (self : GumCodeSlice) (spec : Option GumAddressSpec) : Bool :=
  match spec with
  | none => true
  | some sp =>
      let near_address : Int := sp.near_address
      let slice_start : Int := self.data
      let slice_end : Int := slice_start + self.size - 1
      let distance_start : Nat := (near_address - slice_start).natAbs
      let distance_end : Nat := (near_address - slice_end).natAbs
      decide (distance_start ≤ sp.max_distance) && decide (distance_end ≤ sp.max_distance)

/-- gum_code_slice_is_aligned (gumcodeallocator.c:359-367): alignment 0 accepts
every slice, otherwise the data pointer must be a multiple of the alignment. -/
def gum_code_slice_is_aligned (slice : GumCodeSlice) (alignment : Nat) : Bool :=
  if alignment = 0 then true
  else decide (slice.data % alignment = 0)

/-- GumCodePages: one batch of pages carved into slices, reference counted. -/
structure GumCodePages where
  ref_count : Int
  data : Nat
  size : Nat
  hasSegment : Bool
deriving DecidableEq

/-- Identity of a slice: the batch it belongs to and its index in the batch.
The C code recovers the batch from the slice pointer by address arithmetic;
the model keeps the pair explicitly. -/
structure GumSliceId where
  pagesId : Nat
  index : Nat
deriving DecidableEq

/-- GumCodeDeflector: one (return_address to target) registration. The id
models pointer identity of the heap-allocated GumCodeDeflectorImpl. -/
structure GumCodeDeflector where
  id : Nat
  return_address : Nat
  target : Nat
  trampoline : Nat
deriving DecidableEq

/-- GumCodeDeflectorDispatcher: a relay in a code cave with its registrations,
the saved original cave bytes, and the thunk page. -/
structure GumCodeDeflectorDispatcher where
  callers : List GumCodeDeflector
  address : Nat
  trampoline : Nat
  thunk : Nat
  original_data : List Nat
  original_size : Nat
deriving DecidableEq

/-- GumCodeAllocator state. allocated_slices is ghost bookkeeping: the slices
handed out by the allocator and not yet freed (the C code does not track this
set; it is recorded here so that invariants about it can be stated). -/
structure GumCodeAllocator where
  slice_size : Nat
  slices_per_page : Nat
  pages : List (Nat × GumCodePages)
  free_slices : List GumSliceId
  dirty_pages : List Nat
  uncommitted_pages : List Nat
  dispatchers : List GumCodeDeflectorDispatcher
  allocated_slices : List GumSliceId
  nextPagesId : Nat
  nextDeflectorId : Nat
deriving DecidableEq

/-- Platform facts queried once per process: gum_query_is_rwx_supported,
gum_query_page_size, and whether the dispatcher relay is emitted (HAVE_ARM). -/
structure GumEnv where
  rwx_supported : Bool
  page_size : Nat
  arm : Bool
deriving DecidableEq

/-- Oracle for the memory primitives consumed by the allocator:
try_near models gum_try_alloc_n_pages_near (may fail), alloc models
gum_alloc_n_pages (aborts instead of failing, hence total), segment_new
models gum_code_segment_new (may fail). Each carries the base address of
the page range the collaborator returns. -/
structure GumMemOracle where
  try_near : Option Nat
  alloc : Nat
  segment_new : Option Nat
deriving DecidableEq

/-- gum_code_allocator_init (gumcodeallocator.c:104-118). -/
def gum_code_allocator_init (env : GumEnv) (slice_size : Nat) : GumCodeAllocator :=
  { slice_size := slice_size
    slices_per_page := env.page_size / slice_size
    pages := []
    free_slices := []
    dirty_pages := []
    uncommitted_pages := []
    dispatchers := []
    allocated_slices := []
    nextPagesId := 0
    nextDeflectorId := 0 }

/-- Look up a live batch by id (pointer dereference in the C code). -/
def GumCodeAllocator.findPages (st : GumCodeAllocator) (pid : Nat) : Option GumCodePages :=
  (st.pages.find? (fun p => p.1 == pid)).map Prod.snd

/-- The slice value a GumSliceId denotes, when its batch is live. -/
def GumCodeAllocator.sliceOf (st : GumCodeAllocator) (sid : GumSliceId) : Option GumCodeSlice :=
  (st.findPages sid.pagesId).map
    (fun p => { data := p.data + sid.index * st.slice_size, size := st.slice_size })

/-- g_hash_table_insert on the dirty-page set: insert if absent. -/
def dirtyInsert (dirty : List Nat) (pid : Nat) : List Nat :=
  if pid ∈ dirty then dirty else pid :: dirty

/-- The free-list scan of gum_code_allocator_try_alloc_slice_near
(gumcodeallocator.c:149-165): first slice passing the near and alignment
tests, returned together with the free list with that link removed. -/
def gum_code_allocator_scan_free (st : GumCodeAllocator) (spec : Option GumAddressSpec)
    (alignment : Nat) :
    List GumSliceId → Option (GumSliceId × GumCodeSlice × List GumSliceId)
  | [] => none
  | sid :: rest =>
      match st.sliceOf sid with
      | some slice =>
          if gum_code_slice_is_near slice spec && gum_code_slice_is_aligned slice alignment then
            some (sid, slice, rest)
          else
            match gum_code_allocator_scan_free st spec alignment rest with
            | some (s, sl, rest2) => some (s, sl, sid :: rest2)
            | none => none
      | none =>
          match gum_code_allocator_scan_free st spec alignment rest with
          | some (s, sl, rest2) => some (s, sl, sid :: rest2)
          | none => none

/-- gum_code_allocator_try_alloc_batch_near (gumcodeallocator.c:209-291):
obtain one page of memory (RWX directly, else a dual-mapped segment), carve it
into slices_per_page slices, return slice 0, push slices 1..K-1 onto the free
list, mark the batch uncommitted (non-RWX) and dirty. -/
def gum_code_allocator_try_alloc_batch_near (env : GumEnv) (o : GumMemOracle)
    (st : GumCodeAllocator) (spec : Option GumAddressSpec) :
    Option GumCodeSlice × GumCodeAllocator :=
  let size_in_bytes := 1 * env.page_size
  let acquired : Option (Nat × Bool) :=
    if env.rwx_supported then
      match spec with
      | some _ => o.try_near.map (fun d => (d, false))
      | none => some (o.alloc, false)
    else
      o.segment_new.map (fun d => (d, true))
  match acquired with
  | none => (none, st)
  | some (data, hasSeg) =>
      let pid := st.nextPagesId
      let pg : GumCodePages :=
        { ref_count := (st.slices_per_page : Int), data := data, size := size_in_bytes
          hasSegment := hasSeg }
      let newFree : List GumSliceId :=
        (List.range (st.slices_per_page - 1)).map (fun j => ⟨pid, j + 1⟩)
      let result : Option (GumCodeSlice × GumSliceId) :=
        if st.slices_per_page = 0 then none
        else some ({ data := data, size := st.slice_size }, ⟨pid, 0⟩)
      let st2 : GumCodeAllocator :=
        { st with
          pages := (pid, pg) :: st.pages
          free_slices := newFree ++ st.free_slices
          uncommitted_pages :=
            if env.rwx_supported then st.uncommitted_pages else pid :: st.uncommitted_pages
          dirty_pages := dirtyInsert st.dirty_pages pid
          allocated_slices :=
            match result with
            | some (_, sid) => sid :: st.allocated_slices
            | none => st.allocated_slices
          nextPagesId := pid + 1 }
      (result.map Prod.fst, st2)

/-- gum_code_allocator_try_alloc_slice_near (gumcodeallocator.c:142-168):
first-fit scan of the free list, falling back to a fresh batch. -/
def gum_code_allocator_try_alloc_slice_near (env : GumEnv) (o : GumMemOracle)
    (st : GumCodeAllocator) (spec : Option GumAddressSpec) (alignment : Nat) :
    Option GumCodeSlice × GumCodeAllocator :=
  match gum_code_allocator_scan_free st spec alignment st.free_slices with
  | some (sid, slice, rest) =>
      (some slice,
        { st with
          free_slices := rest
          dirty_pages := dirtyInsert st.dirty_pages sid.pagesId
          allocated_slices := sid :: st.allocated_slices })
  | none => gum_code_allocator_try_alloc_batch_near env o st spec

/-- gum_code_allocator_alloc_slice (gumcodeallocator.c:136-140). -/
def gum_code_allocator_alloc_slice (env : GumEnv) (o : GumMemOracle)
    (st : GumCodeAllocator) : Option GumCodeSlice × GumCodeAllocator :=
  gum_code_allocator_try_alloc_slice_near env o st none 0

/-- gum_code_pages_unref (gumcodeallocator.c:293-306): drop one reference on a
batch; at zero the batch and its memory are released. -/
def gum_code_pages_unref (st : GumCodeAllocator) (pid : Nat) : GumCodeAllocator :=
  let pages1 := st.pages.map
    (fun p => if p.1 = pid then (p.1, { p.2 with ref_count := p.2.ref_count - 1 }) else p)
  { st with pages := pages1.filter (fun p => !(p.1 == pid && p.2.ref_count == 0)) }

/-- Remove one occurrence of a slice from the ghost allocated set. -/
def gum_ghost_erase : List GumSliceId → GumSliceId → List GumSliceId
  | [], _ => []
  | x :: rest, s => if x = s then rest else x :: gum_ghost_erase rest s

/-- gum_code_slice_free, non-NULL case (gumcodeallocator.c:308-334): on RWX
platforms the slice is pushed back onto the free list; otherwise the owning
batch loses one reference. -/
def gum_code_slice_free_impl (env : GumEnv) (st : GumCodeAllocator)
    (sid : GumSliceId) : GumCodeAllocator :=
  let st1 := { st with allocated_slices := gum_ghost_erase st.allocated_slices sid }
  if env.rwx_supported then
    { st1 with free_slices := sid :: st1.free_slices }
  else
    gum_code_pages_unref st1 sid.pagesId

/-- gum_code_allocator_commit (gumcodeallocator.c:170-207): realize pending
segments, flush the instruction cache of every dirty batch, clear both sets;
on non-RWX platforms additionally discard every free slice. Returns the new
state and the list of (address, size) cache flushes performed. -/
def gum_code_allocator_commit (env : GumEnv) (st : GumCodeAllocator) :
    GumCodeAllocator × List (Nat × Nat) :=
  let flushes := st.dirty_pages.filterMap
    (fun pid => (st.findPages pid).map (fun p => (p.data, p.size)))
  let st1 := { st with uncommitted_pages := [], dirty_pages := [] }
  if env.rwx_supported then
    (st1, flushes)
  else
    let st2 := st1.free_slices.foldl (fun acc sid => gum_code_pages_unref acc sid.pagesId) st1
    ({ st2 with free_slices := [] }, flushes)

/-! Memory model for the deflector: a byte store indexed by address.
readBytes models g_memdup / memcmp reads, writeBytes models memcpy /
emitted-code writes. -/

/-- Read n bytes starting at address a. -/
def readBytes (mem : Nat → Nat) (a : Nat) : Nat → List Nat
  | 0 => []
  | n + 1 => mem a :: readBytes mem (a + 1) n

/-- Write a list of bytes starting at address a. -/
def writeBytes : (Nat → Nat) → Nat → List Nat → (Nat → Nat)
  | mem, _, [] => mem
  | mem, a, b :: rest => writeBytes (fun x => if x = a then b else mem x) (a + 1) rest

/-- The ELF magic bytes compared by gum_probe_range_for_code_cave. -/
def ELFMAG : List Nat := [0x7f, 0x45, 0x4c, 0x46]

/-- gum_probe_range_for_code_cave (gumprocess-linux backend used by
gumcodeallocator.c:574-599): the cave candidate is 8 bytes at base+8; it must
be within distance of the caller, follow an ELF signature at the mapping
start, and hold 8 zero bytes. -/
def gum_probe_range_for_code_cave (mem : Nat → Nat) (caller : GumAddressSpec)
    (base_address : Nat) : Option (Nat × Nat) :=
  let cave_address := base_address + 8
  let distance := ((cave_address : Int) - (caller.near_address : Int)).natAbs
  if distance > caller.max_distance then none
  else if readBytes mem base_address 4 ≠ ELFMAG then none
  else if readBytes mem cave_address 8 ≠ List.replicate 8 0 then none
  else some (cave_address, 8)

/-- gum_process_enumerate_ranges with gum_probe_range_for_code_cave: the
enumeration stops at the first range whose probe succeeds. -/
def gum_probe_ranges (mem : Nat → Nat) (caller : GumAddressSpec) :
    List Nat → Option (Nat × Nat)
  | [] => none
  | base :: rest =>
      match gum_probe_range_for_code_cave mem caller base with
      | some cave => some cave
      | none => gum_probe_ranges mem caller rest

/-- Oracle for dispatcher creation: the base addresses of the RX mappings the
range enumeration yields, the page gum_alloc_n_pages returns for the thunk,
and the relay bytes the Thumb writer emits into the cave (ARM only). -/
structure GumDeflectorOracle where
  ranges : List Nat
  thunk : Nat
  patch : List Nat

/-- gum_code_deflector_dispatcher_new (gumcodeallocator.c:450-520): find a
cave, save its original bytes, allocate the thunk page, and on ARM overwrite
the cave with the relay (asserted to fit within the cave) and publish
address+1 (Thumb bit) as the trampoline. The thunk code itself is emitted by
the out-of-scope assembly emitter and is not part of the byte store. Failure
of the fit assertion (g_assert aborts) is modelled as none. -/
def gum_code_deflector_dispatcher_new (env : GumEnv) (o : GumDeflectorOracle)
    (mem : Nat → Nat) (caller : GumAddressSpec) :
    Option (GumCodeDeflectorDispatcher × (Nat → Nat)) :=
  match gum_probe_ranges mem caller o.ranges with
  | none => none
  | some (cave_address, cave_size) =>
      let original_data := readBytes mem cave_address cave_size
      if env.arm then
        if cave_size < o.patch.length then none
        else
          some ({ callers := [], address := cave_address,
                  trampoline := cave_address + 1, thunk := o.thunk,
                  original_data := original_data, original_size := cave_size },
                writeBytes mem cave_address o.patch)
      else
        some ({ callers := [], address := cave_address,
                trampoline := cave_address, thunk := o.thunk,
                original_data := original_data, original_size := cave_size },
              mem)

/-- The in-range test of gum_code_allocator_alloc_deflector
(gumcodeallocator.c:380-391): distance from the dispatcher address to the
caller near_address, in gssize arithmetic. -/
def gum_dispatcher_in_range (d : GumCodeDeflectorDispatcher)
    (caller : GumAddressSpec) : Bool :=
  decide (((d.address : Int) - (caller.near_address : Int)).natAbs ≤ caller.max_distance)

/-- First-fit scan over the dispatcher list, returning the dispatchers before
the hit, the hit, and the dispatchers after it. -/
def gum_find_dispatcher_split (caller : GumAddressSpec) :
    List GumCodeDeflectorDispatcher →
    Option (List GumCodeDeflectorDispatcher × GumCodeDeflectorDispatcher ×
            List GumCodeDeflectorDispatcher)
  | [] => none
  | d :: rest =>
      if gum_dispatcher_in_range d caller then some ([], d, rest)
      else (gum_find_dispatcher_split caller rest).map
        (fun r => (d :: r.1, r.2.1, r.2.2))

/-- gum_code_allocator_alloc_deflector (gumcodeallocator.c:369-413): reuse the
first dispatcher in range of the caller, else create a new one; register the
(return_address, target) pair on it and hand out a deflector carrying the
dispatcher trampoline. -/
def gum_code_allocator_alloc_deflector (env : GumEnv) (o : GumDeflectorOracle)
    (st : GumCodeAllocator) (mem : Nat → Nat) (caller : GumAddressSpec)
    (return_address target : Nat) :
    Option (GumCodeDeflector × GumCodeAllocator × (Nat → Nat)) :=
  match gum_find_dispatcher_split caller st.dispatchers with
  | some (before, d, after) =>
      let deflector : GumCodeDeflector :=
        { id := st.nextDeflectorId, return_address := return_address,
          target := target, trampoline := d.trampoline }
      some (deflector,
        { st with
          dispatchers := before ++ ({ d with callers := deflector :: d.callers }) :: after
          nextDeflectorId := st.nextDeflectorId + 1 },
        mem)
  | none =>
      match gum_code_deflector_dispatcher_new env o mem caller with
      | none => none
      | some (d, mem2) =>
          let deflector : GumCodeDeflector :=
            { id := st.nextDeflectorId, return_address := return_address,
              target := target, trampoline := d.trampoline }
          some (deflector,
            { st with
              dispatchers := ({ d with callers := [deflector] }) :: st.dispatchers
              nextDeflectorId := st.nextDeflectorId + 1 },
            mem2)

/-- gum_code_deflector_dispatcher_lookup (gumcodeallocator.c:539-554): linear
scan of the registrations for a matching return address. -/
def gum_code_deflector_dispatcher_lookup (self : GumCodeDeflectorDispatcher)
    (return_address : Nat) : Option Nat :=
  (self.callers.find? (fun c => c.return_address == return_address)).map
    (fun c => c.target)

/-- g_slist_delete_link on the caller list: remove the first registration with
the given identity; none when absent. -/
def gum_remove_caller : List GumCodeDeflector → Nat → Option (List GumCodeDeflector)
  | [], _ => none
  | c :: rest, i =>
      if c.id = i then some rest
      else (gum_remove_caller rest i).map (fun r => c :: r)

/-- The dispatcher scan of gum_code_deflector_free (gumcodeallocator.c:425-445)
over the dispatcher list: remove the deflector from the first dispatcher whose
caller list holds it; when the caller list becomes empty the dispatcher is
freed (gum_code_deflector_dispatcher_free, gumcodeallocator.c:522-537: the
original cave bytes are copied back and the thunk page released) and unlinked.
Returns the new dispatcher list, the byte store, and the thunk pages freed;
none models the g_assert_not_reached when no dispatcher holds the deflector. -/
def gum_deflector_free_scan (mem : Nat → Nat) (deflectorId : Nat) :
    List GumCodeDeflectorDispatcher →
    Option (List GumCodeDeflectorDispatcher × (Nat → Nat) × List Nat)
  | [] => none
  | d :: rest =>
      match gum_remove_caller d.callers deflectorId with
      | some callers2 =>
          if callers2.isEmpty then
            some (rest, writeBytes mem d.address d.original_data, [d.thunk])
          else
            some (({ d with callers := callers2 }) :: rest, mem, [])
      | none =>
          (gum_deflector_free_scan mem deflectorId rest).map
            (fun r => (d :: r.1, r.2.1, r.2.2))

/-- gum_code_deflector_free, non-NULL case (gumcodeallocator.c:415-448). -/
def gum_code_deflector_free_impl (st : GumCodeAllocator) (mem : Nat → Nat)
    (deflectorId : Nat) :
    Option (GumCodeAllocator × (Nat → Nat) × List Nat) :=
  (gum_deflector_free_scan mem deflectorId st.dispatchers).map
    (fun r => ({ st with dispatchers := r.1 }, r.2.1, r.2.2))

/-! Pointer-level embedding of the two public free entry points, tracking
whether a NULL argument is dereferenced. -/

/-- Outcome of a call under C pointer semantics: normal completion, a read
through a null pointer, or an assertion failure. -/
inductive GumCCall (α : Type) where
  | ok (value : α)
  | nullDeref
  | assertFailed
deriving DecidableEq

/-- gum_code_slice_free (gumcodeallocator.c:308-334): the NULL check at line
314 precedes every dereference, so a NULL argument returns untouched state. -/
def gum_code_slice_free_checked (env : GumEnv) (st : GumCodeAllocator)
    (slice : Option GumSliceId) : GumCCall GumCodeAllocator :=
  match slice with
  | none => GumCCall.ok st
  | some sid => GumCCall.ok (gum_code_slice_free_impl env st sid)

/-- gum_code_deflector_free (gumcodeallocator.c:415-448): the statement
GumCodeAllocator * allocator = impl->allocator at line 419 loads a field of
the argument before the NULL check at line 422, so a NULL argument is
dereferenced. -/
def gum_code_deflector_free_checked (st : GumCodeAllocator) (mem : Nat → Nat)
    (deflector : Option Nat) :
    GumCCall (GumCodeAllocator × (Nat → Nat) × List Nat) :=
  match deflector with
  | none => GumCCall.nullDeref
  | some i =>
      match gum_code_deflector_free_impl st mem i with
      | some r => GumCCall.ok r
      | none => GumCCall.assertFailed

/-! Linux thread-control backend (src/gum/backend-linux/gumprocess-linux.c):
the modify-thread protocol between gum_process_modify_thread (the parent) and
gum_do_modify_thread (the ptrace helper), and the register-transfer downgrade
of gum_get_regs / gum_set_regs. Kernel calls are oracles carrying the raw
syscall result (a negative errno on failure, as the hand-rolled syscall
wrappers return it). -/

/-- The single-byte protocol tags (enum _GumModifyThreadAck). -/
inductive GumModifyThreadAck where
  | READY
  | READ_CONTEXT
  | MODIFIED_CONTEXT
  | WROTE_CONTEXT
  | FAILED_TO_ATTACH
  | FAILED_TO_WAIT
  | FAILED_TO_STOP
  | FAILED_TO_READ
  | FAILED_TO_WRITE
  | FAILED_TO_DETACH
deriving DecidableEq

/-- WIFSTOPPED on a wait status word. -/
def WIFSTOPPED (status : Nat) : Bool := status % 128 = 127

/-- errno values compared against by gum_get_regs / gum_set_regs. -/
def EPERM : Int := 1

/-- errno value for a vanished thread. -/
def ESRCH : Int := 3

/-- Signal passed to PTRACE_DETACH so the target resumes. -/
def SIGCONT : Nat := 18

/-- Oracle for one register transfer: the raw result the kernel returns to the
regset request (PTRACE_GETREGSET / SETREGSET) and to the legacy request
(PTRACE_GETREGS / SETREGS). -/
structure GumPtraceRegsOracle where
  regset_res : Int
  legacy_res : Int
deriving DecidableEq

/-- gum_get_regs (gumprocess-linux.c:2757-2778): prefer the regset transfer
while gum_is_regset_supported holds; a non-negative result or an EPERM/ESRCH
failure is returned as is, any other failure clears the flag for good and the
legacy transfer is used. Returns (result, flag after the call, whether the
legacy transfer was used). -/
def gum_get_regs (o : GumPtraceRegsOracle) (gum_is_regset_supported : Bool) :
    Int × Bool × Bool :=
  if gum_is_regset_supported then
    if o.regset_res ≥ 0 then (o.regset_res, true, false)
    else if o.regset_res = -EPERM ∨ o.regset_res = -ESRCH then (o.regset_res, true, false)
    else (o.legacy_res, false, true)
  else (o.legacy_res, false, true)

/-- gum_set_regs (gumprocess-linux.c:2780-2801): same downgrade structure as
gum_get_regs, for the write direction. -/
def gum_set_regs (o : GumPtraceRegsOracle) (gum_is_regset_supported : Bool) :
    Int × Bool × Bool :=
  if gum_is_regset_supported then
    if o.regset_res ≥ 0 then (o.regset_res, true, false)
    else if o.regset_res = -EPERM ∨ o.regset_res = -ESRCH then (o.regset_res, true, false)
    else (o.legacy_res, false, true)
  else (o.legacy_res, false, true)

/-- Oracle for one cross-thread modify session: results of the kernel calls
the helper issues, and the register file read from the stopped target. -/
structure GumSessionOracle (Regs : Type) where
  attach_res : Int
  wait_result : Int
  wait_status : Nat
  regs_value : Regs
  get_regs : GumPtraceRegsOracle
  set_regs : GumPtraceRegsOracle
  detach_res : Int

/-- Observable steps of one modify-thread session, in order of occurrence. -/
inductive GumSessionEvent where
  | attach
  | waitStop
  | readRegs
  | runCallback
  | writeRegs
  | detach
deriving DecidableEq

/-- What one helper run produces: the tags written to the parent, the signals
passed to the PTRACE_DETACH attempts (one entry per attempt), the ordered
event trace, the register file written back (when the write step is reached),
and the regset flag after the run. -/
structure GumSessionResult (Regs : Type) where
  acks : List GumModifyThreadAck
  detach_signals : List Nat
  trace : List GumSessionEvent
  regs_written : Option Regs
  regset_supported_after : Bool

/-- gum_do_modify_thread (gumprocess-linux.c:888-985) run in lockstep with the
parent side of the channel: attach, wait for a genuine stop, read registers,
hand the context to the parent (whose callback produces the mutated context),
write the mutated registers back, detach with SIGCONT. Each failure emits its
tag and exits through the beach block, which detaches whenever the attached
flag is still set. The parent callback func runs exactly where the parent
blocks between READ_CONTEXT and MODIFIED_CONTEXT. Failure checks compare the
raw syscall result against -1 exactly as the source does. -/
def gum_do_modify_thread {Regs Cpu : Type} (parse : Regs → Cpu)
    (unparse : Cpu → Regs → Regs) (func : Cpu → Cpu) (thread_id : Int)
    (o : GumSessionOracle Regs) (gum_is_regset_supported : Bool) :
    GumSessionResult Regs :=
  if o.attach_res = -1 then
    { acks := [.FAILED_TO_ATTACH], detach_signals := [], trace := [.attach]
      regs_written := none, regset_supported_after := gum_is_regset_supported }
  else if o.wait_result ≠ thread_id then
    { acks := [.FAILED_TO_WAIT], detach_signals := [SIGCONT]
      trace := [.attach, .detach], regs_written := none
      regset_supported_after := gum_is_regset_supported }
  else if ¬ WIFSTOPPED o.wait_status then
    { acks := [.FAILED_TO_STOP], detach_signals := [SIGCONT]
      trace := [.attach, .waitStop, .detach], regs_written := none
      regset_supported_after := gum_is_regset_supported }
  else
    let g := gum_get_regs o.get_regs gum_is_regset_supported
    if g.1 = -1 then
      { acks := [.FAILED_TO_READ], detach_signals := [SIGCONT]
        trace := [.attach, .waitStop, .readRegs, .detach], regs_written := none
        regset_supported_after := g.2.1 }
    else
      let regs2 := unparse (func (parse o.regs_value)) o.regs_value
      let s := gum_set_regs o.set_regs g.2.1
      if s.1 = -1 then
        { acks := [.READ_CONTEXT, .FAILED_TO_WRITE], detach_signals := [SIGCONT]
          trace := [.attach, .waitStop, .readRegs, .runCallback, .writeRegs, .detach]
          regs_written := some regs2, regset_supported_after := s.2.1 }
      else if o.detach_res = -1 then
        { acks := [.READ_CONTEXT, .FAILED_TO_DETACH], detach_signals := [SIGCONT]
          trace := [.attach, .waitStop, .readRegs, .runCallback, .writeRegs, .detach]
          regs_written := some regs2, regset_supported_after := s.2.1 }
      else
        { acks := [.READ_CONTEXT, .WROTE_CONTEXT], detach_signals := [SIGCONT]
          trace := [.attach, .waitStop, .readRegs, .runCallback, .writeRegs, .detach]
          regs_written := some regs2, regset_supported_after := s.2.1 }

/-- gum_await_ack (gumprocess-linux.c:987-999) over the ack stream: consume
one tag and compare it against the expected one; an exhausted stream models a
failed read. -/
def gum_await_ack (stream : List GumModifyThreadAck) (expected : GumModifyThreadAck) :
    Bool × List GumModifyThreadAck :=
  match stream with
  | [] => (false, [])
  | a :: rest => (a == expected, rest)

/-- The parent half of gum_process_modify_thread for another thread
(gumprocess-linux.c:859-875): await READ_CONTEXT, run the callback, announce
MODIFIED_CONTEXT, and succeed only when WROTE_CONTEXT arrives. Returns the
boolean result of the call and how many times the user callback ran. -/
def gum_parent_run (acks : List GumModifyThreadAck) : Bool × Nat :=
  let r1 := gum_await_ack acks .READ_CONTEXT
  if r1.1 then
    ((gum_await_ack r1.2 .WROTE_CONTEXT).1, 1)
  else
    (false, 0)

/-- The full cross-thread gum_process_modify_thread call: the helper session
composed with the parent protocol, yielding the boolean the caller sees. -/
def gum_process_modify_thread_other {Regs Cpu : Type} (parse : Regs → Cpu)
    (unparse : Cpu → Regs → Regs) (func : Cpu → Cpu) (thread_id : Int)
    (o : GumSessionOracle Regs) (gum_is_regset_supported : Bool) : Bool × Nat :=
  gum_parent_run
    (gum_do_modify_thread parse unparse func thread_id o gum_is_regset_supported).acks

/-- The current-thread arm of gum_process_modify_thread
(gumprocess-linux.c:739-768), on runtimes with getcontext/setcontext: capture
the saved context, and when the volatile modified flag is still clear, run the
callback on the parsed context, install the mutated context and resume through
it; the resumed execution re-enters at the capture point with the flag set and
falls through. Arguments: the converters, the callback, and the captured
context; result: (success, final installed context, callback runs). -/
def gum_modify_current_go {UCtx Cpu : Type} (parse_uc : UCtx → Cpu)
    (unparse_uc : Cpu → UCtx → UCtx) (func : Cpu → Cpu)
    (modified : Bool) (uc : UCtx) (runs : Nat) : Bool × UCtx × Nat :=
  if modified then
    (true, uc, runs)
  else
    gum_modify_current_go parse_uc unparse_uc func true
      (unparse_uc (func (parse_uc uc)) uc) (runs + 1)
termination_by (if modified then 0 else 1)
decreasing_by simp_all

/-- Entry to the current-thread arm: the modified flag starts clear. -/
def gum_process_modify_thread_current {UCtx Cpu : Type} (parse_uc : UCtx → Cpu)
    (unparse_uc : Cpu → UCtx → UCtx) (func : Cpu → Cpu) (uc : UCtx) :
    Bool × UCtx × Nat :=
  gum_modify_current_go parse_uc unparse_uc func false uc 0

/-! Invariant vocabulary for the allocator claims. -/

/-- Number of slices in a list belonging to a given batch. -/
def countPages (l : List GumSliceId) (pid : Nat) : Nat :=
  (l.filter (fun sid => sid.pagesId == pid)).length

/-- Well-formed allocator state: batch ids are below the freshness counter and
every live batch holds one reference per slice of it that is either handed out
(allocated_slices) or parked on the free list. -/
structure GumAllocWF (st : GumCodeAllocator) : Prop where
  fresh_pages : ∀ p ∈ st.pages, p.1 < st.nextPagesId
  fresh_free : ∀ sid ∈ st.free_slices, sid.pagesId < st.nextPagesId
  fresh_alloc : ∀ sid ∈ st.allocated_slices, sid.pagesId < st.nextPagesId
  ref_eq : ∀ p ∈ st.pages,
    p.2.ref_count =
      countPages st.allocated_slices p.1 + countPages st.free_slices p.1

/-- Modelled from the spec: gum_try_alloc_n_pages_near and gum_code_segment_new
are memory primitives outside this repository (consumed contracts, spec section
6: allocate N pages with a protection and a near-address/distance hint). A
successful spec-constrained allocation yields a page range whose first and last
byte both lie within max_distance of near_address — the property the allocator
relies on for the fresh-batch arm of the near guarantee. -/
def gum_mem_oracle_near_ok (env : GumEnv) (o : GumMemOracle)
    (spec : GumAddressSpec) : Prop :=
  (∀ data, o.try_near = some data →
      ((spec.near_address : Int) - data).natAbs ≤ spec.max_distance ∧
      ((spec.near_address : Int) - ((data : Int) + env.page_size - 1)).natAbs ≤
        spec.max_distance) ∧
  (∀ data, o.segment_new = some data →
      ((spec.near_address : Int) - data).natAbs ≤ spec.max_distance ∧
      ((spec.near_address : Int) - ((data : Int) + env.page_size - 1)).natAbs ≤
        spec.max_distance)

/-! Concrete scenarios used by counterexamples. -/

/-- RWX platform with 16-byte pages, for the ref-count scenario. -/
def gumC4env : GumEnv := { rwx_supported := true, page_size := 16, arm := false }

/-- Memory oracle for the ref-count scenario: plain allocation at 1000. -/
def gumC4oracle : GumMemOracle := { try_near := none, alloc := 1000, segment_new := none }

/-- State after one unconstrained allocation from a fresh allocator with
slice size 8 (so two slices per page). -/
def gumC4state : GumCodeAllocator :=
  (gum_code_allocator_alloc_slice gumC4env gumC4oracle
    (gum_code_allocator_init gumC4env 8)).2

/-- Dispatcher at address 0 for the reuse scenario. -/
def gumC8dA : GumCodeDeflectorDispatcher :=
  { callers := [], address := 0, trampoline := 0, thunk := 0,
    original_data := [], original_size := 8 }

/-- Dispatcher at address 100 for the reuse scenario. -/
def gumC8dB : GumCodeDeflectorDispatcher :=
  { callers := [], address := 100, trampoline := 100, thunk := 0,
    original_data := [], original_size := 8 }

/-- Allocator state holding the two dispatchers, dA before dB. -/
def gumC8state : GumCodeAllocator :=
  { gum_code_allocator_init gumC4env 8 with dispatchers := [gumC8dA, gumC8dB] }

/-- First caller spec: within distance 50 of both dispatchers. -/
def gumC8spec1 : GumAddressSpec := { near_address := 50, max_distance := 50 }

/-- Second caller spec: within distance 0 of dB only. -/
def gumC8spec2 : GumAddressSpec := { near_address := 100, max_distance := 0 }

/-- Deflector oracle for the reuse scenario (never consulted: both calls
reuse existing dispatchers). -/
def gumC8oracle : GumDeflectorOracle := { ranges := [], thunk := 0, patch := [] }

/-- Two consecutive alloc_deflector calls on gumC8state: the trampolines of
the two returned deflectors and the final dispatcher count. -/
def gumC8pipeline : Option (Nat × Nat × Nat) :=
  match gum_code_allocator_alloc_deflector gumC4env gumC8oracle gumC8state
      (fun _ => 0) gumC8spec1 11 21 with
  | some (d1, st1, mem1) =>
      match gum_code_allocator_alloc_deflector gumC4env gumC8oracle st1 mem1
          gumC8spec2 12 22 with
      | some (d2, st2, _) => some (d1.trampoline, d2.trampoline, st2.dispatchers.length)
      | none => none
  | none => none

/-- Concrete byte store for the dispatcher lifecycle scenario: ELF magic at
100..103, zeroes elsewhere (in particular the cave at 108..115). -/
def gumC7mem : Nat → Nat := fun a =>
  if a = 100 then 0x7f
  else if a = 101 then 0x45
  else if a = 102 then 0x4c
  else if a = 103 then 0x46
  else 0

/-! Helper lemmas (shared between claims). -/

theorem countPages_nil (pid : Nat) : countPages [] pid = 0 := rfl

theorem countPages_cons (s : GumSliceId) (l : List GumSliceId) (pid : Nat) :
    countPages (s :: l) pid =
      (if s.pagesId = pid then 1 else 0) + countPages l pid := by
  simp only [countPages, List.filter_cons]
  by_cases h : s.pagesId = pid <;> simp [h, Nat.add_comm]

theorem countPages_append (a b : List GumSliceId) (pid : Nat) :
    countPages (a ++ b) pid = countPages a pid + countPages b pid := by
  simp [countPages, List.filter_append]

theorem countPages_eq_zero_of_fresh (l : List GumSliceId) (pid : Nat)
    (h : ∀ sid ∈ l, sid.pagesId ≠ pid) : countPages l pid = 0 := by
  induction l with
  | nil => rfl
  | cons s t ih =>
      rw [countPages_cons]
      have hs := h s (by simp)
      rw [if_neg hs, Nat.zero_add]
      exact ih (fun sid hm => h sid (by simp [hm]))

theorem countPages_gum_ghost_erase (l : List GumSliceId) (sid : GumSliceId)
    (pid : Nat) (h : sid ∈ l) :
    countPages (gum_ghost_erase l sid) pid +
      (if sid.pagesId = pid then 1 else 0) = countPages l pid := by
  induction l with
  | nil => cases h
  | cons s t ih =>
      by_cases hs : s = sid
      · subst hs
        simp [gum_ghost_erase, countPages_cons, Nat.add_comm]
      · have hm : sid ∈ t := by
          rcases List.mem_cons.mp h with h1 | h1
          · exact absurd h1.symm hs
          · exact h1
        simp only [gum_ghost_erase, if_neg hs, countPages_cons]
        rw [Nat.add_assoc, ih hm]

theorem mem_gum_ghost_erase (sid : GumSliceId) :
    ∀ (l : List GumSliceId) (x : GumSliceId), x ∈ gum_ghost_erase l sid → x ∈ l := by
  intro l
  induction l with
  | nil => intro x h; cases h
  | cons s t ih =>
      intro x h
      simp only [gum_ghost_erase] at h
      by_cases hs : s = sid
      · rw [if_pos hs] at h
        exact List.mem_cons_of_mem _ h
      · rw [if_neg hs] at h
        rcases List.mem_cons.mp h with h1 | h1
        · exact h1 ▸ List.mem_cons_self _ _
        · exact List.mem_cons_of_mem _ (ih x h1)

theorem gum_scan_free_decomp (st : GumCodeAllocator) (spec : Option GumAddressSpec)
    (alignment : Nat) :
    ∀ (l : List GumSliceId) (sid : GumSliceId) (slice : GumCodeSlice)
      (rest : List GumSliceId),
      gum_code_allocator_scan_free st spec alignment l = some (sid, slice, rest) →
      ∃ l1 l2, l = l1 ++ sid :: l2 ∧ rest = l1 ++ l2 ∧
        (gum_code_slice_is_near slice spec &&
          gum_code_slice_is_aligned slice alignment) = true ∧
        st.sliceOf sid = some slice := by
  intro l
  induction l with
  | nil => intro sid slice rest h; simp [gum_code_allocator_scan_free] at h
  | cons s t ih =>
      intro sid slice rest h
      simp only [gum_code_allocator_scan_free] at h
      split at h
      · rename_i sl hso
        split at h
        · rename_i hg
          simp only [Option.some.injEq, Prod.mk.injEq] at h
          obtain ⟨h1, h2, h3⟩ := h
          subst h1; subst h2; subst h3
          exact ⟨[], t, rfl, rfl, hg, hso⟩
        · rename_i hg
          split at h
          · rename_i s2 sl2 rest2 hrec
            simp only [Option.some.injEq, Prod.mk.injEq] at h
            obtain ⟨h1, h2, h3⟩ := h
            obtain ⟨l1, l2, e1, e2, e3, e4⟩ := ih _ _ rest2 hrec
            subst h1; subst h2
            exact ⟨s :: l1, l2, by simp [e1], by simp [← h3, e2], e3, e4⟩
          · cases h
      · rename_i hso
        split at h
        · rename_i s2 sl2 rest2 hrec
          simp only [Option.some.injEq, Prod.mk.injEq] at h
          obtain ⟨h1, h2, h3⟩ := h
          obtain ⟨l1, l2, e1, e2, e3, e4⟩ := ih _ _ rest2 hrec
          subst h1; subst h2
          exact ⟨s :: l1, l2, by simp [e1], by simp [← h3, e2], e3, e4⟩
        · cases h

theorem gum_unref_dirty (st : GumCodeAllocator) (pid : Nat) :
    (gum_code_pages_unref st pid).dirty_pages = st.dirty_pages := rfl

theorem gum_foldl_unref_dirty (l : List GumSliceId) :
    ∀ st : GumCodeAllocator,
      (l.foldl (fun acc sid => gum_code_pages_unref acc sid.pagesId) st).dirty_pages =
        st.dirty_pages := by
  induction l with
  | nil => intro st; rfl
  | cons s t ih => intro st; rw [List.foldl_cons, ih]; rfl

theorem gum_commit_fst_dirty (env : GumEnv) (st : GumCodeAllocator) :
    (gum_code_allocator_commit env st).1.dirty_pages = [] := by
  unfold gum_code_allocator_commit
  by_cases h : env.rwx_supported = true
  · simp [h]
  · simp only [Bool.not_eq_true] at h
    simp [h, gum_foldl_unref_dirty]

theorem gum_commit_snd (env : GumEnv) (st : GumCodeAllocator) :
    (gum_code_allocator_commit env st).2 = st.dirty_pages.filterMap
      (fun pid => (st.findPages pid).map (fun p => (p.data, p.size))) := by
  unfold gum_code_allocator_commit
  by_cases h : env.rwx_supported = true <;> simp [h]

/-- Claim C9: commit() called twice in a row with no allocation in between
performs zero instruction-cache flushes the second time — the first call
empties the dirty-batch set (and the uncommitted-batch list), so the second
flush loop has nothing to visit. -/
theorem gum_spec_c9 (env : GumEnv) (st : GumCodeAllocator) :
    (gum_code_allocator_commit env (gum_code_allocator_commit env st).1).2 = [] := by
  rw [gum_commit_snd, gum_commit_fst_dirty]
  rfl

/-- Claim C10 (code bug): gum_code_slice_free(NULL) is a safe no-op — its NULL
check precedes every dereference — but gum_code_deflector_free(NULL) loads
impl->allocator before its own NULL check (gumcodeallocator.c:419 before 422),
reading through the null pointer. -/
theorem gum_spec_c10 (env : GumEnv) (st : GumCodeAllocator) (mem : Nat → Nat) :
    gum_code_slice_free_checked env st none = GumCCall.ok st ∧
    gum_code_deflector_free_checked st mem none = GumCCall.nullDeref :=
  ⟨rfl, rfl⟩

/-- Claim C3: with a non-null spec, any slice gum_code_allocator_try_alloc_slice_near
returns — whether taken from the free list (guarded by gum_code_slice_is_near)
or carved from a fresh batch (whose page range satisfies the spec by the
collaborator contract gum_mem_oracle_near_ok) — has both its first and last
byte within max_distance of near_address; and an unconstrained alloc_slice
returns none only when the memory collaborator is exhausted (non-RWX segment
allocation failed; RWX gum_alloc_n_pages aborts instead of failing). -/
theorem gum_spec_c3 :
    (∀ (env : GumEnv) (o : GumMemOracle) (st : GumCodeAllocator)
        (sp : GumAddressSpec) (alignment : Nat) (slice : GumCodeSlice),
        0 < st.slice_size → st.slice_size ≤ env.page_size →
        gum_mem_oracle_near_ok env o sp →
        (gum_code_allocator_try_alloc_slice_near env o st (some sp) alignment).1 =
          some slice →
        gum_code_slice_is_near slice (some sp) = true) ∧
    (∀ (env : GumEnv) (o : GumMemOracle) (st : GumCodeAllocator),
        1 ≤ st.slices_per_page →
        (gum_code_allocator_try_alloc_slice_near env o st none 0).1 = none →
        env.rwx_supported = false ∧ o.segment_new = none) := by
  constructor
  · intro env o st sp alignment slice hpos hle hnear hres
    obtain ⟨sd, ss⟩ := slice
    unfold gum_code_allocator_try_alloc_slice_near at hres
    cases hscan : gum_code_allocator_scan_free st (some sp) alignment st.free_slices with
    | some r =>
        obtain ⟨sid, sl, rest⟩ := r
        rw [hscan] at hres
        simp only [Option.some.injEq] at hres
        obtain ⟨l1, l2, _, _, hguard, _⟩ :=
          gum_scan_free_decomp st (some sp) alignment st.free_slices sid sl rest hscan
        rw [← hres]
        simp only [Bool.and_eq_true] at hguard
        exact hguard.1
    | none =>
        rw [hscan] at hres
        simp only [gum_code_allocator_try_alloc_batch_near] at hres
        by_cases hrwx : env.rwx_supported = true
        · cases htn : o.try_near with
          | none => simp [hrwx, htn] at hres
          | some data =>
              by_cases hk : st.slices_per_page = 0
              · simp [hrwx, htn, hk] at hres
              · simp [hrwx, htn, hk, GumCodeSlice.mk.injEq] at hres
                obtain ⟨hd1, hd2⟩ := hnear.1 data htn
                obtain ⟨e1, e2⟩ := hres
                simp only [gum_code_slice_is_near, Bool.and_eq_true,
                  decide_eq_true_eq]
                constructor <;> omega
        · simp only [Bool.not_eq_true] at hrwx
          cases hsg : o.segment_new with
          | none => simp [hrwx, hsg] at hres
          | some data =>
              by_cases hk : st.slices_per_page = 0
              · simp [hrwx, hsg, hk] at hres
              · simp [hrwx, hsg, hk, GumCodeSlice.mk.injEq] at hres
                obtain ⟨hd1, hd2⟩ := hnear.2 data hsg
                obtain ⟨e1, e2⟩ := hres
                simp only [gum_code_slice_is_near, Bool.and_eq_true,
                  decide_eq_true_eq]
                constructor <;> omega
  · intro env o st hK hres
    unfold gum_code_allocator_try_alloc_slice_near at hres
    cases hscan : gum_code_allocator_scan_free st none 0 st.free_slices with
    | some r =>
        obtain ⟨sid, sl, rest⟩ := r
        rw [hscan] at hres
        cases hres
    | none =>
        rw [hscan] at hres
        simp only [gum_code_allocator_try_alloc_batch_near] at hres
        have hk : ¬ st.slices_per_page = 0 := by omega
        by_cases hrwx : env.rwx_supported = true
        · simp [hrwx, hk] at hres
        · simp only [Bool.not_eq_true] at hrwx
          cases hsg : o.segment_new with
          | none => exact ⟨hrwx, rfl⟩
          | some data => simp [hrwx, hsg, hk] at hres

/-- Witness for gum_spec_c3: a concrete constrained allocation from a fresh
allocator (page size 16, slice size 8, page obtained at 100 near address 100
with distance 20) yields a slice satisfying the dual near bound. -/
theorem gum_spec_c3_witness :
    gum_code_slice_is_near { data := 100, size := 8 }
      (some { near_address := 100, max_distance := 20 }) = true :=
  gum_spec_c3.1 { rwx_supported := true, page_size := 16, arm := false }
    { try_near := some 100, alloc := 0, segment_new := none }
    (gum_code_allocator_init { rwx_supported := true, page_size := 16, arm := false } 8)
    { near_address := 100, max_distance := 20 } 0 { data := 100, size := 8 }
    (by decide) (by decide)
    ⟨fun d hd => by injection hd with hd; subst hd; exact ⟨by decide, by decide⟩,
     fun d hd => by cases hd⟩
    (by decide)

theorem countPages_range_map (pid q : Nat) :
    ∀ K : Nat, countPages ((List.range K).map
      (fun j => ({ pagesId := pid, index := j + 1 } : GumSliceId))) q =
      if pid = q then K else 0 := by
  intro K
  induction K with
  | zero => simp [countPages]
  | succ n ih =>
      rw [List.range_succ]
      simp only [List.map_append, List.map_cons, List.map_nil, countPages_append, ih,
        countPages_cons, countPages_nil]
      by_cases h : pid = q <;> simp [h]

theorem mem_carve_pagesId (pid K : Nat) (x : GumSliceId)
    (h : x ∈ (List.range K).map
      (fun j => ({ pagesId := pid, index := j + 1 } : GumSliceId))) :
    x.pagesId = pid := by
  simp only [List.mem_map] at h
  obtain ⟨j, _, rfl⟩ := h
  rfl

theorem gum_unref_pages_subset (st : GumCodeAllocator) (pid : Nat) :
    ∀ p ∈ (gum_code_pages_unref st pid).pages, ∃ q ∈ st.pages, p.1 = q.1 := by
  intro p hp
  unfold gum_code_pages_unref at hp
  have hp1 := List.mem_of_mem_filter hp
  simp only [List.mem_map] at hp1
  obtain ⟨q, hq, rfl⟩ := hp1
  refine ⟨q, hq, ?_⟩
  by_cases hc : q.1 = pid <;> simp [hc]

theorem gum_unref_count_eq (st : GumCodeAllocator) (pid : Nat) (g : Nat → Int)
    (h : ∀ p ∈ st.pages, p.2.ref_count = g p.1 + (if p.1 = pid then 1 else 0)) :
    ∀ p ∈ (gum_code_pages_unref st pid).pages, p.2.ref_count = g p.1 := by
  intro p hp
  unfold gum_code_pages_unref at hp
  have hp1 := List.mem_of_mem_filter hp
  simp only [List.mem_map] at hp1
  obtain ⟨q, hq, rfl⟩ := hp1
  have hq2 := h q hq
  by_cases hc : q.1 = pid <;> simp [hc] at hq2 ⊢ <;> omega

theorem gum_foldl_unref_spec :
    ∀ (l : List GumSliceId) (st : GumCodeAllocator),
      (∀ p ∈ st.pages, p.2.ref_count =
        countPages st.allocated_slices p.1 + countPages l p.1) →
      ((l.foldl (fun acc sid => gum_code_pages_unref acc sid.pagesId) st).allocated_slices =
          st.allocated_slices ∧
       (l.foldl (fun acc sid => gum_code_pages_unref acc sid.pagesId) st).nextPagesId =
          st.nextPagesId ∧
       (∀ p ∈ (l.foldl (fun acc sid => gum_code_pages_unref acc sid.pagesId) st).pages,
          ∃ q ∈ st.pages, p.1 = q.1) ∧
       (∀ p ∈ (l.foldl (fun acc sid => gum_code_pages_unref acc sid.pagesId) st).pages,
          p.2.ref_count = countPages st.allocated_slices p.1)) := by
  intro l
  induction l with
  | nil =>
      intro st h
      refine ⟨rfl, rfl, fun p hp => ⟨p, hp, rfl⟩, fun p hp => ?_⟩
      have h2 := h p hp
      rw [countPages_nil] at h2
      omega
  | cons sid t ih =>
      intro st h
      rw [List.foldl_cons]
      have hpre : ∀ p ∈ st.pages, p.2.ref_count =
          ((countPages st.allocated_slices p.1 + countPages t p.1 : Nat) : Int) +
            (if p.1 = sid.pagesId then 1 else 0) := by
        intro p hp
        have h2 := h p hp
        rw [countPages_cons] at h2
        by_cases hc : p.1 = sid.pagesId
        · rw [if_pos hc]
          rw [if_pos hc.symm] at h2
          omega
        · rw [if_neg hc]
          rw [if_neg (fun hh => hc hh.symm)] at h2
          omega
      have h1 : ∀ p ∈ (gum_code_pages_unref st sid.pagesId).pages, p.2.ref_count =
          countPages (gum_code_pages_unref st sid.pagesId).allocated_slices p.1 +
            countPages t p.1 := by
        intro p hp
        have := gum_unref_count_eq st sid.pagesId
          (fun i => ((countPages st.allocated_slices i + countPages t i : Nat) : Int))
          hpre p hp
        push_cast at this ⊢
        exact this
      obtain ⟨e1, e2, e3, e4⟩ := ih (gum_code_pages_unref st sid.pagesId) h1
      refine ⟨e1, e2, fun p hp => ?_, fun p hp => ?_⟩
      · obtain ⟨q, hq, hid⟩ := e3 p hp
        obtain ⟨q2, hq2, hid2⟩ := gum_unref_pages_subset st sid.pagesId q hq
        exact ⟨q2, hq2, hid.trans hid2⟩
      · exact e4 p hp

theorem gum_install_batch_wf (st : GumCodeAllocator) (data szB : Nat)
    (hasSeg : Bool) (unc : List Nat) (A2 : List GumSliceId)
    (hA : (st.slices_per_page ≠ 0 ∧
            A2 = { pagesId := st.nextPagesId, index := 0 } :: st.allocated_slices) ∨
          (st.slices_per_page = 0 ∧ A2 = st.allocated_slices))
    (h : GumAllocWF st) :
    GumAllocWF
      { st with
        pages := (st.nextPagesId,
          { ref_count := (st.slices_per_page : Int), data := data, size := szB,
            hasSegment := hasSeg }) :: st.pages
        free_slices := (List.range (st.slices_per_page - 1)).map
          (fun j => { pagesId := st.nextPagesId, index := j + 1 }) ++ st.free_slices
        uncommitted_pages := unc
        dirty_pages := dirtyInsert st.dirty_pages st.nextPagesId
        allocated_slices := A2
        nextPagesId := st.nextPagesId + 1 } := by
  have hAfresh : countPages st.allocated_slices st.nextPagesId = 0 :=
    countPages_eq_zero_of_fresh _ _ (fun s hs => Nat.ne_of_lt (h.fresh_alloc s hs))
  have hFfresh : countPages st.free_slices st.nextPagesId = 0 :=
    countPages_eq_zero_of_fresh _ _ (fun s hs => Nat.ne_of_lt (h.fresh_free s hs))
  constructor
  · intro p hp
    rcases List.mem_cons.mp hp with rfl | hp
    · exact Nat.lt_succ_self _
    · exact Nat.lt_succ_of_lt (h.fresh_pages p hp)
  · intro sid hs
    rcases List.mem_append.mp hs with hs | hs
    · rw [mem_carve_pagesId _ _ _ hs]
      exact Nat.lt_succ_self _
    · exact Nat.lt_succ_of_lt (h.fresh_free sid hs)
  · intro sid hs
    rcases hA with ⟨hk, rfl⟩ | ⟨hk, rfl⟩
    · rcases List.mem_cons.mp hs with rfl | hs
      · exact Nat.lt_succ_self _
      · exact Nat.lt_succ_of_lt (h.fresh_alloc sid hs)
    · exact Nat.lt_succ_of_lt (h.fresh_alloc sid hs)
  · intro p hp
    rcases List.mem_cons.mp hp with rfl | hp2
    · simp only [countPages_append, countPages_range_map, if_pos rfl]
      rcases hA with ⟨hk, rfl⟩ | ⟨hk, rfl⟩
      · rw [countPages_cons]
        simp only [if_pos rfl]
        rw [hAfresh, hFfresh]
        push_cast
        omega
      · rw [hAfresh, hFfresh]
        simp [hk]
    · have hne : st.nextPagesId ≠ p.1 := Nat.ne_of_gt (h.fresh_pages p hp2)
      simp only [countPages_append, countPages_range_map, if_neg hne, Nat.zero_add]
      rcases hA with ⟨hk, rfl⟩ | ⟨hk, rfl⟩
      · rw [countPages_cons]
        simp only [if_neg hne, Nat.zero_add]
        exact h.ref_eq p hp2
      · exact h.ref_eq p hp2

theorem gum_batch_wf (env : GumEnv) (o : GumMemOracle) (st : GumCodeAllocator)
    (spec : Option GumAddressSpec) (h : GumAllocWF st) :
    GumAllocWF (gum_code_allocator_try_alloc_batch_near env o st spec).2 := by
  unfold gum_code_allocator_try_alloc_batch_near
  by_cases hrwx : env.rwx_supported = true
  · cases spec with
    | some sp =>
        cases htn : o.try_near with
        | none => simpa [hrwx, htn] using h
        | some data =>
            by_cases hk : st.slices_per_page = 0
            · simp only [hrwx, htn, if_true, if_pos hk, Option.map_some']
              exact gum_install_batch_wf st data _ false _ _ (Or.inr ⟨hk, rfl⟩) h
            · simp only [hrwx, htn, if_true, if_neg hk, Option.map_some']
              exact gum_install_batch_wf st data _ false _ _ (Or.inl ⟨hk, rfl⟩) h
    | none =>
        by_cases hk : st.slices_per_page = 0
        · simp only [hrwx, if_true, if_pos hk]
          exact gum_install_batch_wf st o.alloc _ false _ _ (Or.inr ⟨hk, rfl⟩) h
        · simp only [hrwx, if_true, if_neg hk]
          exact gum_install_batch_wf st o.alloc _ false _ _ (Or.inl ⟨hk, rfl⟩) h
  · simp only [Bool.not_eq_true] at hrwx
    cases hsg : o.segment_new with
    | none => simpa [hrwx, hsg] using h
    | some data =>
        by_cases hk : st.slices_per_page = 0
        · simp only [hrwx, hsg, Bool.false_eq_true, if_false, if_pos hk,
            Option.map_some']
          exact gum_install_batch_wf st data _ true _ _ (Or.inr ⟨hk, rfl⟩) h
        · simp only [hrwx, hsg, Bool.false_eq_true, if_false, if_neg hk,
            Option.map_some']
          exact gum_install_batch_wf st data _ true _ _ (Or.inl ⟨hk, rfl⟩) h

theorem gum_alloc_slice_wf (env : GumEnv) (o : GumMemOracle) (st : GumCodeAllocator)
    (spec : Option GumAddressSpec) (alignment : Nat) (h : GumAllocWF st) :
    GumAllocWF (gum_code_allocator_try_alloc_slice_near env o st spec alignment).2 := by
  unfold gum_code_allocator_try_alloc_slice_near
  cases hscan : gum_code_allocator_scan_free st spec alignment st.free_slices with
  | none =>
      simp only [hscan]
      exact gum_batch_wf env o st spec h
  | some r =>
      obtain ⟨sid, slice, rest⟩ := r
      simp only [hscan]
      obtain ⟨l1, l2, e1, e2, _, _⟩ :=
        gum_scan_free_decomp st spec alignment st.free_slices sid slice rest hscan
      have hsidfree : sid ∈ st.free_slices := by
        rw [e1]
        exact List.mem_append_right _ (List.mem_cons_self _ _)
      constructor
      · exact h.fresh_pages
      · intro s hs
        apply h.fresh_free
        rw [e1]
        rw [e2] at hs
        rcases List.mem_append.mp hs with h1 | h1
        · exact List.mem_append_left _ h1
        · exact List.mem_append_right _ (List.mem_cons_of_mem _ h1)
      · intro s hs
        rcases List.mem_cons.mp hs with rfl | hs
        · exact h.fresh_free s hsidfree
        · exact h.fresh_alloc s hs
      · intro p hp
        have href := h.ref_eq p hp
        rw [e1, countPages_append, countPages_cons] at href
        rw [countPages_cons, e2, countPages_append]
        by_cases hc : sid.pagesId = p.1
        · rw [if_pos hc] at href ⊢
          omega
        · rw [if_neg hc] at href ⊢
          omega

theorem gum_slice_free_wf (env : GumEnv) (st : GumCodeAllocator) (sid : GumSliceId)
    (h : GumAllocWF st) (hmem : sid ∈ st.allocated_slices) :
    GumAllocWF (gum_code_slice_free_impl env st sid) := by
  unfold gum_code_slice_free_impl
  by_cases hrwx : env.rwx_supported = true
  · simp only [hrwx, if_true]
    constructor
    · exact h.fresh_pages
    · intro s hs
      rcases List.mem_cons.mp hs with rfl | hs
      · exact h.fresh_alloc s hmem
      · exact h.fresh_free s hs
    · intro s hs
      exact h.fresh_alloc s (mem_gum_ghost_erase sid _ s hs)
    · intro p hp
      dsimp only at hp ⊢
      have he := countPages_gum_ghost_erase st.allocated_slices sid p.1 hmem
      have href := h.ref_eq p hp
      rw [countPages_cons]
      by_cases hc : sid.pagesId = p.1
      · rw [if_pos hc] at he ⊢
        omega
      · rw [if_neg hc] at he ⊢
        omega
  · simp only [hrwx, Bool.false_eq_true, if_false]
    have hpre : ∀ p ∈ st.pages, p.2.ref_count =
        ((countPages (gum_ghost_erase st.allocated_slices sid) p.1 +
          countPages st.free_slices p.1 : Nat) : Int) +
          (if p.1 = sid.pagesId then 1 else 0) := by
      intro p hp
      have he := countPages_gum_ghost_erase st.allocated_slices sid p.1 hmem
      have href := h.ref_eq p hp
      by_cases hc : p.1 = sid.pagesId
      · rw [if_pos hc]
        rw [if_pos hc.symm] at he
        omega
      · rw [if_neg hc]
        rw [if_neg (fun hh => hc hh.symm)] at he
        omega
    constructor
    · intro p hp
      obtain ⟨q, hq, hid⟩ := gum_unref_pages_subset _ sid.pagesId p hp
      rw [hid]
      exact h.fresh_pages q hq
    · intro s hs
      exact h.fresh_free s hs
    · intro s hs
      exact h.fresh_alloc s (mem_gum_ghost_erase sid _ s hs)
    · intro p hp
      have := gum_unref_count_eq _ sid.pagesId
        (fun i => ((countPages (gum_ghost_erase st.allocated_slices sid) i +
          countPages st.free_slices i : Nat) : Int)) hpre p hp
      push_cast at this ⊢
      exact this

theorem gum_commit_wf (env : GumEnv) (st : GumCodeAllocator) (h : GumAllocWF st) :
    GumAllocWF (gum_code_allocator_commit env st).1 := by
  unfold gum_code_allocator_commit
  by_cases hrwx : env.rwx_supported = true
  · simp only [hrwx, if_true]
    exact ⟨h.fresh_pages, h.fresh_free, h.fresh_alloc, h.ref_eq⟩
  · simp only [Bool.not_eq_true] at hrwx
    simp only [hrwx, Bool.false_eq_true, if_false]
    obtain ⟨e1, e2, e3, e4⟩ := gum_foldl_unref_spec st.free_slices
      { st with uncommitted_pages := [], dirty_pages := [] }
      (fun p hp => h.ref_eq p hp)
    dsimp only at e1 e2 e3 e4
    refine ⟨?_, ?_, ?_, ?_⟩
    · intro p hp
      dsimp only at hp
      obtain ⟨q, hq, hid⟩ := e3 p hp
      have h2 : q.1 < st.nextPagesId := h.fresh_pages q hq
      have h3 : p.1 < st.nextPagesId := hid ▸ h2
      exact lt_of_lt_of_eq h3 e2.symm
    · intro s hs
      cases hs
    · intro s hs
      dsimp only at hs ⊢
      rw [e1] at hs
      exact lt_of_lt_of_eq (h.fresh_alloc s hs) e2.symm
    · intro p hp
      dsimp only at hp ⊢
      have h4 := e4 p hp
      rw [e1, countPages_nil]
      omega

/-- Claim C4 counterexample: on an RWX platform with a 16-byte page and 8-byte
slices, a single allocation from a fresh allocator creates a batch whose
ref_count is 2 (one reference per carved slice) while only 1 slice has been
handed out — the remaining slice sits on the free list, so ref_count does not
equal the currently-allocated slice count. -/
theorem gum_spec_c4_counterexample :
    gumC4state.findPages 0 =
      some { ref_count := 2, data := 1000, size := 16, hasSegment := false } ∧
    countPages gumC4state.allocated_slices 0 = 1 ∧ (2 : Int) ≠ (1 : Int) := by
  refine ⟨by decide, by decide, by decide⟩

/-- Claim C4 (amended): for every reachable state, each live batch holds one
reference per slice of it that is currently allocated OR parked on the free
list (not just the allocated ones), and this invariant is preserved by
initialization, slice allocation (free-list hit or fresh batch), slice free
(for a slice actually handed out), and commit. -/
theorem gum_spec_c4_amended :
    (∀ (env : GumEnv) (slice_size : Nat),
        GumAllocWF (gum_code_allocator_init env slice_size)) ∧
    (∀ (env : GumEnv) (o : GumMemOracle) (st : GumCodeAllocator)
        (spec : Option GumAddressSpec) (alignment : Nat),
        GumAllocWF st →
        GumAllocWF (gum_code_allocator_try_alloc_slice_near env o st spec alignment).2) ∧
    (∀ (env : GumEnv) (st : GumCodeAllocator) (sid : GumSliceId),
        GumAllocWF st → sid ∈ st.allocated_slices →
        GumAllocWF (gum_code_slice_free_impl env st sid)) ∧
    (∀ (env : GumEnv) (st : GumCodeAllocator),
        GumAllocWF st → GumAllocWF (gum_code_allocator_commit env st).1) := by
  refine ⟨?_, ?_, ?_, ?_⟩
  · intro env slice_size
    refine ⟨?_, ?_, ?_, ?_⟩
    · intro p hp
      cases hp
    · intro s hs
      cases hs
    · intro s hs
      cases hs
    · intro p hp
      cases hp
  · intro env o st spec alignment h
    exact gum_alloc_slice_wf env o st spec alignment h
  · intro env st sid h hmem
    exact gum_slice_free_wf env st sid h hmem
  · intro env st h
    exact gum_commit_wf env st h

/-- Witness for gum_spec_c4_amended: the invariant holds along the concrete
scenario of the counterexample state (fresh allocator, one allocation). -/
theorem gum_spec_c4_witness :
    GumAllocWF ((gum_code_allocator_alloc_slice gumC4env gumC4oracle
      (gum_code_allocator_init gumC4env 8)).2) :=
  gum_spec_c4_amended.2.1 gumC4env gumC4oracle
    (gum_code_allocator_init gumC4env 8) none 0
    (gum_spec_c4_amended.1 gumC4env 8)

/-- Claim C6 counterexample: a refused regset response (-EPERM) does NOT latch
the process to the legacy transfer — gum_get_regs returns the error with
gum_is_regset_supported still set, no legacy transfer is attempted, and the
next call still uses the regset transfer. -/
theorem gum_spec_c6_counterexample :
    gum_get_regs { regset_res := -EPERM, legacy_res := 7 } true =
      (-EPERM, true, false) ∧
    gum_get_regs { regset_res := 0, legacy_res := 7 }
      (gum_get_regs { regset_res := -EPERM, legacy_res := 7 } true).2.1 =
      (0, true, false) := by
  constructor <;> rfl

/-- Claim C6 (amended): register access prefers the regset transfer; the first
regset response that is an error other than EPERM or ESRCH permanently latches
the process to the legacy transfer (flag cleared, legacy used for that call);
once the flag is clear every later read and write uses the legacy transfer and
the flag never returns to set; EPERM and ESRCH responses (and successes) are
returned as is without latching. -/
theorem gum_spec_c6_amended :
    (∀ o : GumPtraceRegsOracle, o.regset_res < 0 → o.regset_res ≠ -EPERM →
        o.regset_res ≠ -ESRCH →
        gum_get_regs o true = (o.legacy_res, false, true) ∧
        gum_set_regs o true = (o.legacy_res, false, true)) ∧
    (∀ o : GumPtraceRegsOracle,
        gum_get_regs o false = (o.legacy_res, false, true) ∧
        gum_set_regs o false = (o.legacy_res, false, true)) ∧
    (∀ o : GumPtraceRegsOracle, o.regset_res ≥ 0 ∨ o.regset_res = -EPERM ∨
        o.regset_res = -ESRCH →
        gum_get_regs o true = (o.regset_res, true, false) ∧
        gum_set_regs o true = (o.regset_res, true, false)) := by
  refine ⟨?_, ?_, ?_⟩
  · intro o h1 h2 h3
    have hge : ¬ o.regset_res ≥ 0 := by omega
    have hee : ¬ (o.regset_res = -EPERM ∨ o.regset_res = -ESRCH) := by
      rintro (h | h)
      · exact h2 h
      · exact h3 h
    constructor <;> simp [gum_get_regs, gum_set_regs, hge, hee]
  · intro o
    constructor <;> rfl
  · intro o h
    have hok : o.regset_res ≥ 0 ∨ (o.regset_res = -EPERM ∨ o.regset_res = -ESRCH) := by
      tauto
    rcases hok with hok | hok
    · constructor <;> simp [gum_get_regs, gum_set_regs, hok]
    · have hge : ¬ o.regset_res ≥ 0 := by
        simp only [EPERM, ESRCH] at hok
        omega
      constructor <;> simp [gum_get_regs, gum_set_regs, hge, hok]

/-- Witness for gum_spec_c6_amended: a concrete unsupported response (-5, EIO)
latches the register transfer to legacy. -/
theorem gum_spec_c6_witness :
    gum_get_regs { regset_res := -5, legacy_res := 9 } true = (9, false, true) ∧
    gum_set_regs { regset_res := -5, legacy_res := 9 } true = (9, false, true) :=
  gum_spec_c6_amended.1 { regset_res := -5, legacy_res := 9 }
    (by decide) (by decide) (by decide)

/-- Claim C1: in a cross-thread modify_thread call, (a) when the helper's
first tag is one of the attach/wait/stop/read failure tags, the call returns
failure and the user callback never runs; (b) when the callback did run but
the write-back or detach step failed, the call still returns failure; (c) the
call returns success exactly when the parent receives WROTE_CONTEXT. -/
theorem gum_spec_c1 {Regs Cpu : Type} (parse : Regs → Cpu)
    (unparse : Cpu → Regs → Regs) (func : Cpu → Cpu) (thread_id : Int)
    (o : GumSessionOracle Regs) (rs : Bool) :
    (∀ t, (gum_do_modify_thread parse unparse func thread_id o rs).acks.head? =
        some t →
      (t = GumModifyThreadAck.FAILED_TO_ATTACH ∨ t = GumModifyThreadAck.FAILED_TO_WAIT ∨
       t = GumModifyThreadAck.FAILED_TO_STOP ∨ t = GumModifyThreadAck.FAILED_TO_READ) →
      gum_process_modify_thread_other parse unparse func thread_id o rs = (false, 0)) ∧
    ((GumModifyThreadAck.FAILED_TO_WRITE ∈
        (gum_do_modify_thread parse unparse func thread_id o rs).acks ∨
      GumModifyThreadAck.FAILED_TO_DETACH ∈
        (gum_do_modify_thread parse unparse func thread_id o rs).acks) →
      (gum_process_modify_thread_other parse unparse func thread_id o rs).1 = false) ∧
    ((gum_process_modify_thread_other parse unparse func thread_id o rs).1 = true ↔
      GumModifyThreadAck.WROTE_CONTEXT ∈
        (gum_do_modify_thread parse unparse func thread_id o rs).acks) := by
  refine ⟨?_, ?_, ?_⟩
  · intro t ht hcases
    unfold gum_process_modify_thread_other
    unfold gum_do_modify_thread at ht ⊢
    dsimp only at ht ⊢
    split_ifs at ht ⊢ <;>
      ((try dsimp only at ht ⊢); simp only [List.head?_cons, Option.some.injEq] at ht;
        subst ht; revert hcases; decide)
  · intro hmem
    unfold gum_process_modify_thread_other
    unfold gum_do_modify_thread at hmem ⊢
    dsimp only at hmem ⊢
    split_ifs at hmem ⊢ <;> ((try dsimp only at hmem ⊢); revert hmem; decide)
  · unfold gum_process_modify_thread_other gum_do_modify_thread
    dsimp only
    split_ifs <;> ((try dsimp only); decide)

/-- Witness for gum_spec_c1: a concrete fully-successful session (all kernel
calls succeed, the target stops) where the parent receives WROTE_CONTEXT. -/
theorem gum_spec_c1_witness :
    GumModifyThreadAck.WROTE_CONTEXT ∈
      (gum_do_modify_thread (id : Nat → Nat) (fun c _ => c) id 42
        { attach_res := 0, wait_result := 42, wait_status := 127, regs_value := 5,
          get_regs := { regset_res := 0, legacy_res := 0 },
          set_regs := { regset_res := 0, legacy_res := 0 }, detach_res := 0 }
        true).acks :=
  (gum_spec_c1 (id : Nat → Nat) (fun c _ => c) id 42
    { attach_res := 0, wait_result := 42, wait_status := 127, regs_value := 5,
      get_regs := { regset_res := 0, legacy_res := 0 },
      set_regs := { regset_res := 0, legacy_res := 0 }, detach_res := 0 }
    true).2.2.mp (by decide)

/-- Claim C2: whenever the helper's ptrace attach succeeded (result not -1, in
particular a genuine success 0), every exit path of gum_do_modify_thread
attempts exactly one PTRACE_DETACH carrying SIGCONT before the helper exits —
including the paths where the wait, stop check, register read or register
write failed — so the helper never exits while still attached. -/
theorem gum_spec_c2 {Regs Cpu : Type} (parse : Regs → Cpu)
    (unparse : Cpu → Regs → Regs) (func : Cpu → Cpu) (thread_id : Int)
    (o : GumSessionOracle Regs) (rs : Bool) (h : o.attach_res ≠ -1) :
    (gum_do_modify_thread parse unparse func thread_id o rs).detach_signals =
      [SIGCONT] ∧
    GumSessionEvent.detach ∈
      (gum_do_modify_thread parse unparse func thread_id o rs).trace := by
  unfold gum_do_modify_thread
  dsimp only
  split_ifs with h1 h2 h3 h4 h5 h6 <;>
    first
      | exact absurd h1 h
      | exact ⟨rfl, by dsimp only; decide⟩

/-- Witness for gum_spec_c2: a concrete session whose register write fails
(set_regs returns -EPERM) still detaches with SIGCONT. -/
theorem gum_spec_c2_witness :
    (gum_do_modify_thread (id : Nat → Nat) (fun c _ => c) id 42
      { attach_res := 0, wait_result := 42, wait_status := 127, regs_value := 5,
        get_regs := { regset_res := 0, legacy_res := 0 },
        set_regs := { regset_res := -1, legacy_res := 0 }, detach_res := 0 }
      true).detach_signals = [SIGCONT] ∧
    GumSessionEvent.detach ∈
      (gum_do_modify_thread (id : Nat → Nat) (fun c _ => c) id 42
        { attach_res := 0, wait_result := 42, wait_status := 127, regs_value := 5,
          get_regs := { regset_res := 0, legacy_res := 0 },
          set_regs := { regset_res := -1, legacy_res := 0 }, detach_res := 0 }
        true).trace :=
  gum_spec_c2 (id : Nat → Nat) (fun c _ => c) id 42
    { attach_res := 0, wait_result := 42, wait_status := 127, regs_value := 5,
      get_regs := { regset_res := 0, legacy_res := 0 },
      set_regs := { regset_res := -1, legacy_res := 0 }, detach_res := 0 }
    true (by decide)

/-- Claim C5: (current thread) the getcontext/setcontext arm runs the callback
exactly once — the volatile modified flag guards the re-entry after setcontext
— and the installed context is the mutated one, so the changes are live when
execution resumes; (other thread) a successful cross-thread call runs the
callback exactly once, the registers written back are exactly the unparse of
the callback result on the parsed target registers, and in the session trace
the register write precedes the detach that resumes the target. -/
theorem gum_spec_c5 :
    (∀ (UCtx Cpu : Type) (parse_uc : UCtx → Cpu) (unparse_uc : Cpu → UCtx → UCtx)
        (func : Cpu → Cpu) (uc : UCtx),
        gum_process_modify_thread_current parse_uc unparse_uc func uc =
          (true, unparse_uc (func (parse_uc uc)) uc, 1)) ∧
    (∀ (Regs Cpu : Type) (parse : Regs → Cpu) (unparse : Cpu → Regs → Regs)
        (func : Cpu → Cpu) (thread_id : Int) (o : GumSessionOracle Regs) (rs : Bool),
        (gum_process_modify_thread_other parse unparse func thread_id o rs).1 = true →
        (gum_process_modify_thread_other parse unparse func thread_id o rs).2 = 1 ∧
        (gum_do_modify_thread parse unparse func thread_id o rs).regs_written =
          some (unparse (func (parse o.regs_value)) o.regs_value) ∧
        (gum_do_modify_thread parse unparse func thread_id o rs).trace =
          [GumSessionEvent.attach, GumSessionEvent.waitStop, GumSessionEvent.readRegs,
           GumSessionEvent.runCallback, GumSessionEvent.writeRegs,
           GumSessionEvent.detach]) := by
  constructor
  · intro UCtx Cpu parse_uc unparse_uc func uc
    unfold gum_process_modify_thread_current
    rw [gum_modify_current_go, gum_modify_current_go]
    simp
  · intro Regs Cpu parse unparse func thread_id o rs hsucc
    unfold gum_process_modify_thread_other gum_do_modify_thread at hsucc ⊢
    dsimp only at hsucc ⊢
    split_ifs at hsucc ⊢ <;>
      (try dsimp only at hsucc ⊢) <;>
      first
        | exact absurd hsucc (by decide)
        | exact ⟨by decide, rfl, rfl⟩

/-- Witness for gum_spec_c5: the cross-thread conclusions at a concrete
successful session with callback (fun c => c + 1) on register value 5. -/
theorem gum_spec_c5_witness :
    (gum_process_modify_thread_other (id : Nat → Nat) (fun c _ => c)
      (fun c => c + 1) 42
      { attach_res := 0, wait_result := 42, wait_status := 127, regs_value := 5,
        get_regs := { regset_res := 0, legacy_res := 0 },
        set_regs := { regset_res := 0, legacy_res := 0 }, detach_res := 0 }
      true).2 = 1 ∧
    (gum_do_modify_thread (id : Nat → Nat) (fun c _ => c) (fun c => c + 1) 42
      { attach_res := 0, wait_result := 42, wait_status := 127, regs_value := 5,
        get_regs := { regset_res := 0, legacy_res := 0 },
        set_regs := { regset_res := 0, legacy_res := 0 }, detach_res := 0 }
      true).regs_written = some 6 := by
  have h := gum_spec_c5.2 Nat Nat id (fun c _ => c) (fun c => c + 1) 42
    { attach_res := 0, wait_result := 42, wait_status := 127, regs_value := 5,
      get_regs := { regset_res := 0, legacy_res := 0 },
      set_regs := { regset_res := 0, legacy_res := 0 }, detach_res := 0 }
    true (by decide)
  exact ⟨h.1, h.2.1⟩

theorem gum_find_dispatcher_split_eq (c : GumAddressSpec) :
    ∀ (l l1 : List GumCodeDeflectorDispatcher) (d : GumCodeDeflectorDispatcher)
      (l2 : List GumCodeDeflectorDispatcher),
      gum_find_dispatcher_split c l = some (l1, d, l2) →
      l = l1 ++ d :: l2 ∧ (∀ x ∈ l1, gum_dispatcher_in_range x c = false) ∧
        gum_dispatcher_in_range d c = true := by
  intro l
  induction l with
  | nil => intro l1 d l2 h; simp [gum_find_dispatcher_split] at h
  | cons e t ih =>
      intro l1 d l2 h
      simp only [gum_find_dispatcher_split] at h
      by_cases he : gum_dispatcher_in_range e c = true
      · rw [if_pos he] at h
        simp only [Option.some.injEq, Prod.mk.injEq] at h
        obtain ⟨h1, h2, h3⟩ := h
        subst h1; subst h2; subst h3
        refine ⟨rfl, ?_, he⟩
        intro x hx
        cases hx
      · rw [if_neg he] at h
        cases hrec : gum_find_dispatcher_split c t with
        | none => rw [hrec] at h; cases h
        | some r =>
            rw [hrec] at h
            obtain ⟨r1, rd, r2⟩ := r
            simp only [Option.map_some', Option.some.injEq, Prod.mk.injEq] at h
            obtain ⟨h1, h2, h3⟩ := h
            obtain ⟨e1, e2, e3⟩ := ih r1 rd r2 hrec
            subst h1; subst h2; subst h3
            refine ⟨by simp [e1], ?_, e3⟩
            intro x hx
            rcases List.mem_cons.mp hx with rfl | hx
            · exact Bool.not_eq_true _ ▸ Bool.of_not_eq_true he
            · exact e2 x hx

theorem gum_find_dispatcher_split_intro (c : GumAddressSpec) :
    ∀ (l1 : List GumCodeDeflectorDispatcher) (d : GumCodeDeflectorDispatcher)
      (l2 : List GumCodeDeflectorDispatcher),
      (∀ x ∈ l1, gum_dispatcher_in_range x c = false) →
      gum_dispatcher_in_range d c = true →
      gum_find_dispatcher_split c (l1 ++ d :: l2) = some (l1, d, l2) := by
  intro l1
  induction l1 with
  | nil =>
      intro d l2 h1 h2
      simp only [List.nil_append, gum_find_dispatcher_split, h2, if_true]
  | cons e t ih =>
      intro d l2 h1 h2
      have he : gum_dispatcher_in_range e c = false := h1 e (by simp)
      simp only [List.cons_append, gum_find_dispatcher_split, he,
        Bool.false_eq_true, if_false]
      rw [show t.append (d :: l2) = t ++ d :: l2 from rfl,
        ih d l2 (fun x hx => h1 x (by simp [hx])) h2]
      rfl

/-- Claim C8 counterexample: with dispatchers [dA at 0, dB at 100], spec1
(near 50, distance 50) reaches both, spec2 (near 100, distance 0) reaches
only dB. Both specs lie within max_distance of the same existing dispatcher
dB, and the second call reuses dB without creating a new dispatcher (the
dispatcher count stays 2), yet the two returned deflectors carry different
trampolines (0 from the first-fit hit dA, and 100 from dB). -/
theorem gum_spec_c8_counterexample :
    gum_dispatcher_in_range gumC8dB gumC8spec1 = true ∧
    gum_dispatcher_in_range gumC8dB gumC8spec2 = true ∧
    gumC8pipeline = some (0, 100, 2) ∧ (0 : Nat) ≠ 100 :=
  ⟨by decide, by decide, by decide, by decide⟩

/-- Claim C8 (amended): the first-fit dispatcher scan means reuse follows list
order, so the guarantee holds when the same dispatcher is the first in-range
dispatcher for both caller specs: then both calls reuse it, create no new
dispatcher, and both returned deflectors carry that dispatcher trampoline. -/
theorem gum_spec_c8_amended (env : GumEnv) (o1 o2 : GumDeflectorOracle)
    (st : GumCodeAllocator) (mem : Nat → Nat) (sp1 sp2 : GumAddressSpec)
    (ra1 t1 ra2 t2 : Nat) (l1 : List GumCodeDeflectorDispatcher)
    (d : GumCodeDeflectorDispatcher) (l2 : List GumCodeDeflectorDispatcher)
    (h1 : gum_find_dispatcher_split sp1 st.dispatchers = some (l1, d, l2))
    (h2 : gum_find_dispatcher_split sp2 st.dispatchers = some (l1, d, l2)) :
    ∃ d1 st1 d2 st2,
      gum_code_allocator_alloc_deflector env o1 st mem sp1 ra1 t1 =
        some (d1, st1, mem) ∧
      gum_code_allocator_alloc_deflector env o2 st1 mem sp2 ra2 t2 =
        some (d2, st2, mem) ∧
      d1.trampoline = d.trampoline ∧ d2.trampoline = d.trampoline ∧
      st1.dispatchers.length = st.dispatchers.length ∧
      st2.dispatchers.length = st.dispatchers.length := by
  obtain ⟨e1, e2, e3⟩ := gum_find_dispatcher_split_eq sp2 st.dispatchers l1 d l2 h2
  have hc1 : gum_code_allocator_alloc_deflector env o1 st mem sp1 ra1 t1 =
      some ({ id := st.nextDeflectorId, return_address := ra1, target := t1,
              trampoline := d.trampoline },
            { st with
              dispatchers := l1 ++
                ({ d with callers :=
                  { id := st.nextDeflectorId, return_address := ra1, target := t1,
                    trampoline := d.trampoline } :: d.callers }) :: l2
              nextDeflectorId := st.nextDeflectorId + 1 }, mem) := by
    unfold gum_code_allocator_alloc_deflector
    rw [h1]
  have hsplit2 : gum_find_dispatcher_split sp2
      (l1 ++ ({ d with callers :=
        { id := st.nextDeflectorId, return_address := ra1, target := t1,
          trampoline := d.trampoline } :: d.callers }) :: l2) =
      some (l1, { d with callers :=
        { id := st.nextDeflectorId, return_address := ra1, target := t1,
          trampoline := d.trampoline } :: d.callers }, l2) :=
    gum_find_dispatcher_split_intro sp2 l1 _ l2 e2 e3
  have hc2 : gum_code_allocator_alloc_deflector env o2
      { st with
        dispatchers := l1 ++
          ({ d with callers :=
            { id := st.nextDeflectorId, return_address := ra1, target := t1,
              trampoline := d.trampoline } :: d.callers }) :: l2
        nextDeflectorId := st.nextDeflectorId + 1 } mem sp2 ra2 t2 =
      some ({ id := st.nextDeflectorId + 1, return_address := ra2, target := t2,
              trampoline := d.trampoline },
            { st with
              dispatchers := l1 ++
                ({ d with callers :=
                  { id := st.nextDeflectorId + 1, return_address := ra2, target := t2,
                    trampoline := d.trampoline } ::
                  { id := st.nextDeflectorId, return_address := ra1, target := t1,
                    trampoline := d.trampoline } :: d.callers }) :: l2
              nextDeflectorId := st.nextDeflectorId + 1 + 1 }, mem) := by
    unfold gum_code_allocator_alloc_deflector
    dsimp only
    rw [hsplit2]
  refine ⟨_, _, _, _, hc1, hc2, rfl, rfl, ?_, ?_⟩
  · rw [e1]
    dsimp only
    simp
  · rw [e1]
    dsimp only
    simp

/-- Witness for gum_spec_c8_amended: a single dispatcher at address 100 is the
first in-range dispatcher for both calls (near 100, distance 0). -/
theorem gum_spec_c8_witness :
    ∃ d1 st1 d2 st2,
      gum_code_allocator_alloc_deflector gumC4env gumC8oracle
        { gum_code_allocator_init gumC4env 8 with dispatchers := [gumC8dB] }
        (fun _ => 0) gumC8spec2 11 21 = some (d1, st1, fun _ => 0) ∧
      gum_code_allocator_alloc_deflector gumC4env gumC8oracle st1 (fun _ => 0)
        gumC8spec2 12 22 = some (d2, st2, fun _ => 0) ∧
      d1.trampoline = gumC8dB.trampoline ∧ d2.trampoline = gumC8dB.trampoline ∧
      st1.dispatchers.length =
        ({ gum_code_allocator_init gumC4env 8 with
            dispatchers := [gumC8dB] } : GumCodeAllocator).dispatchers.length ∧
      st2.dispatchers.length =
        ({ gum_code_allocator_init gumC4env 8 with
            dispatchers := [gumC8dB] } : GumCodeAllocator).dispatchers.length :=
  gum_spec_c8_amended gumC4env gumC8oracle gumC8oracle
    { gum_code_allocator_init gumC4env 8 with dispatchers := [gumC8dB] }
    (fun _ => 0) gumC8spec2 gumC8spec2 11 21 12 22 [] gumC8dB []
    (by decide) (by decide)

theorem writeBytes_eq_outside :
    ∀ (l : List Nat) (mem : Nat → Nat) (a x : Nat),
      (x < a ∨ a + l.length ≤ x) → writeBytes mem a l x = mem x := by
  intro l
  induction l with
  | nil => intro mem a x _; rfl
  | cons b rest ih =>
      intro mem a x h
      simp only [List.length_cons] at h
      simp only [writeBytes]
      have hcond : x < a + 1 ∨ (a + 1) + rest.length ≤ x := by omega
      rw [ih _ (a + 1) x hcond]
      have hne : x ≠ a := by omega
      simp [hne]

theorem writeBytes_readBytes_restore :
    ∀ (n : Nat) (m mp : Nat → Nat) (a : Nat),
      (∀ x, x < a ∨ a + n ≤ x → mp x = m x) →
      ∀ x, writeBytes mp a (readBytes m a n) x = m x := by
  intro n
  induction n with
  | zero =>
      intro m mp a h x
      simp only [readBytes, writeBytes]
      exact h x (by omega)
  | succ k ih =>
      intro m mp a h x
      simp only [readBytes, writeBytes]
      apply ih
      intro y hy
      by_cases hya : y = a
      · subst hya; simp
      · simp only [if_neg hya]
        apply h
        omega

/-- Claim C7: full dispatcher lifecycle over an ELF mapping at base with an
empty 8-byte cave at base+8. Two alloc_deflector calls create one dispatcher
and register two deflectors on it, sharing one trampoline. Freeing the first
deflector removes only that registration — the byte store and thunk are
untouched, the dispatcher survives, and the remaining registration is still
routable through gum_code_deflector_dispatcher_lookup. Freeing the last
registration releases the thunk page, destroys the dispatcher, and restores
every byte of process memory — in particular the cave — to its original
value. -/
theorem gum_spec_c7 (env : GumEnv) (mem0 : Nat → Nat) (base T : Nat)
    (patch : List Nat) (sp1 sp2 : GumAddressSpec) (ra1 t1 ra2 t2 : Nat)
    (st0 : GumCodeAllocator)
    (hd : st0.dispatchers = [])
    (hmagic : readBytes mem0 base 4 = ELFMAG)
    (hzero : readBytes mem0 (base + 8) 8 = List.replicate 8 0)
    (hnear1 : (((base + 8 : Nat) : Int) - (sp1.near_address : Int)).natAbs ≤
      sp1.max_distance)
    (hnear2 : (((base + 8 : Nat) : Int) - (sp2.near_address : Int)).natAbs ≤
      sp2.max_distance)
    (hplen : patch.length ≤ 8) :
    ∃ d1 st1 mem1 d2 st2 st3 st4 mem4,
      gum_code_allocator_alloc_deflector env
        { ranges := [base], thunk := T, patch := patch } st0 mem0 sp1 ra1 t1 =
        some (d1, st1, mem1) ∧
      gum_code_allocator_alloc_deflector env
        { ranges := [base], thunk := T, patch := patch } st1 mem1 sp2 ra2 t2 =
        some (d2, st2, mem1) ∧
      d1.trampoline = d2.trampoline ∧
      gum_code_deflector_free_impl st2 mem1 d1.id = some (st3, mem1, []) ∧
      (∃ dd, st3.dispatchers = [dd] ∧
        gum_code_deflector_dispatcher_lookup dd d2.return_address =
          some d2.target) ∧
      gum_code_deflector_free_impl st3 mem1 d2.id = some (st4, mem4, [T]) ∧
      st4.dispatchers = [] ∧
      (∀ x, mem4 x = mem0 x) := by
  have hprobe : gum_probe_ranges mem0 sp1 [base] = some (base + 8, 8) := by
    unfold gum_probe_ranges gum_probe_range_for_code_cave
    dsimp only
    rw [if_neg (by omega), if_neg (by simp [hmagic]), if_neg (by simp [hzero])]
  have hexists : ∃ D memA,
      gum_code_deflector_dispatcher_new env
        { ranges := [base], thunk := T, patch := patch } mem0 sp1 =
        some (D, memA) ∧
      D.callers = [] ∧ D.address = base + 8 ∧ D.thunk = T ∧
      D.original_data = readBytes mem0 (base + 8) 8 ∧ D.original_size = 8 ∧
      (∀ x, x < base + 8 ∨ base + 16 ≤ x → memA x = mem0 x) := by
    unfold gum_code_deflector_dispatcher_new
    rw [hprobe]
    dsimp only
    cases harm : env.arm with
    | false =>
        simp only [Bool.false_eq_true, if_false]
        exact ⟨_, _, rfl, rfl, rfl, rfl, rfl, rfl, fun x _ => rfl⟩
    | true =>
        simp only [if_true]
        rw [if_neg (by omega)]
        refine ⟨_, _, rfl, rfl, rfl, rfl, rfl, rfl, ?_⟩
        intro x hx
        apply writeBytes_eq_outside
        rcases hx with hx | hx
        · exact Or.inl hx
        · exact Or.inr (by omega)
  obtain ⟨D, memA, hnew, hDc, hDaddr, hDthunk, hDod, hDos, hmemA⟩ := hexists
  have hc1 : gum_code_allocator_alloc_deflector env
      { ranges := [base], thunk := T, patch := patch } st0 mem0 sp1 ra1 t1 =
      some ({ id := st0.nextDeflectorId, return_address := ra1, target := t1,
              trampoline := D.trampoline },
            { st0 with
              dispatchers := [{ D with callers :=
                [{ id := st0.nextDeflectorId, return_address := ra1, target := t1,
                   trampoline := D.trampoline }] }]
              nextDeflectorId := st0.nextDeflectorId + 1 }, memA) := by
    unfold gum_code_allocator_alloc_deflector
    rw [hd]
    simp only [gum_find_dispatcher_split]
    rw [hnew]
  have hinr : gum_dispatcher_in_range
      ({ D with callers :=
        [{ id := st0.nextDeflectorId, return_address := ra1, target := t1,
           trampoline := D.trampoline }] }) sp2 = true := by
    unfold gum_dispatcher_in_range
    dsimp only
    rw [hDaddr, decide_eq_true_eq]
    exact hnear2
  have hsplit2 : gum_find_dispatcher_split sp2
      [{ D with callers :=
        [{ id := st0.nextDeflectorId, return_address := ra1, target := t1,
           trampoline := D.trampoline }] }] =
      some ([], { D with callers :=
        [{ id := st0.nextDeflectorId, return_address := ra1, target := t1,
           trampoline := D.trampoline }] }, []) := by
    simp only [gum_find_dispatcher_split, hinr, if_true]
  have hc2 : gum_code_allocator_alloc_deflector env
      { ranges := [base], thunk := T, patch := patch }
      { st0 with
        dispatchers := [{ D with callers :=
          [{ id := st0.nextDeflectorId, return_address := ra1, target := t1,
             trampoline := D.trampoline }] }]
        nextDeflectorId := st0.nextDeflectorId + 1 } memA sp2 ra2 t2 =
      some ({ id := st0.nextDeflectorId + 1, return_address := ra2, target := t2,
              trampoline := D.trampoline },
            { st0 with
              dispatchers := [{ D with callers :=
                [{ id := st0.nextDeflectorId + 1, return_address := ra2, target := t2,
                   trampoline := D.trampoline },
                 { id := st0.nextDeflectorId, return_address := ra1, target := t1,
                   trampoline := D.trampoline }] }]
              nextDeflectorId := st0.nextDeflectorId + 1 + 1 }, memA) := by
    unfold gum_code_allocator_alloc_deflector
    dsimp only
    rw [hsplit2]
    rfl
  have hne1 : ¬ (st0.nextDeflectorId + 1 = st0.nextDeflectorId) := by omega
  have hrm1 : gum_remove_caller
      [{ id := st0.nextDeflectorId + 1, return_address := ra2, target := t2,
         trampoline := D.trampoline },
       { id := st0.nextDeflectorId, return_address := ra1, target := t1,
         trampoline := D.trampoline }] st0.nextDeflectorId =
      some [{ id := st0.nextDeflectorId + 1, return_address := ra2, target := t2,
              trampoline := D.trampoline }] := by
    simp [gum_remove_caller]
  have hfree1 : gum_code_deflector_free_impl
      { st0 with
        dispatchers := [{ D with callers :=
          [{ id := st0.nextDeflectorId + 1, return_address := ra2, target := t2,
             trampoline := D.trampoline },
           { id := st0.nextDeflectorId, return_address := ra1, target := t1,
             trampoline := D.trampoline }] }]
        nextDeflectorId := st0.nextDeflectorId + 1 + 1 } memA st0.nextDeflectorId =
      some ({ st0 with
              dispatchers := [{ D with callers :=
                [{ id := st0.nextDeflectorId + 1, return_address := ra2, target := t2,
                   trampoline := D.trampoline }] }]
              nextDeflectorId := st0.nextDeflectorId + 1 + 1 }, memA, []) := by
    unfold gum_code_deflector_free_impl gum_deflector_free_scan
    dsimp only
    rw [hrm1]
    rfl
  have hlook : gum_code_deflector_dispatcher_lookup
      ({ D with callers :=
        [{ id := st0.nextDeflectorId + 1, return_address := ra2, target := t2,
           trampoline := D.trampoline }] }) ra2 = some t2 := by
    unfold gum_code_deflector_dispatcher_lookup
    dsimp only
    simp [List.find?]
  have hrm2 : gum_remove_caller
      [{ id := st0.nextDeflectorId + 1, return_address := ra2, target := t2,
         trampoline := D.trampoline }] (st0.nextDeflectorId + 1) =
      some [] := by
    simp [gum_remove_caller]
  have hfree2 : gum_code_deflector_free_impl
      { st0 with
        dispatchers := [{ D with callers :=
          [{ id := st0.nextDeflectorId + 1, return_address := ra2, target := t2,
             trampoline := D.trampoline }] }]
        nextDeflectorId := st0.nextDeflectorId + 1 + 1 } memA
      (st0.nextDeflectorId + 1) =
      some ({ st0 with
              dispatchers := []
              nextDeflectorId := st0.nextDeflectorId + 1 + 1 },
            writeBytes memA D.address D.original_data, [T]) := by
    unfold gum_code_deflector_free_impl gum_deflector_free_scan
    dsimp only
    rw [hrm2, hDthunk]
    rfl
  have hrestore : ∀ x, writeBytes memA D.address D.original_data x = mem0 x := by
    rw [hDaddr, hDod]
    apply writeBytes_readBytes_restore
    intro y hy
    apply hmemA
    rcases hy with hy | hy
    · exact Or.inl hy
    · exact Or.inr (by omega)
  refine ⟨_, _, _, _, _, _, _, _, hc1, hc2, rfl, hfree1, ⟨_, rfl, hlook⟩,
    hfree2, rfl, hrestore⟩

/-- Witness for gum_spec_c7: concrete memory with an ELF magic at 100 and a
zeroed cave at 108, one caller spec at distance 0, no relay patch. -/
theorem gum_spec_c7_witness :
    ∃ d1 st1 mem1 d2 st2 st3 st4 mem4,
      gum_code_allocator_alloc_deflector
        { rwx_supported := true, page_size := 16, arm := false }
        { ranges := [100], thunk := 7, patch := [] }
        (gum_code_allocator_init
          { rwx_supported := true, page_size := 16, arm := false } 8)
        gumC7mem { near_address := 108, max_distance := 0 } 11 21 =
        some (d1, st1, mem1) ∧
      gum_code_allocator_alloc_deflector
        { rwx_supported := true, page_size := 16, arm := false }
        { ranges := [100], thunk := 7, patch := [] } st1 mem1
        { near_address := 108, max_distance := 0 } 12 22 =
        some (d2, st2, mem1) ∧
      d1.trampoline = d2.trampoline ∧
      gum_code_deflector_free_impl st2 mem1 d1.id = some (st3, mem1, []) ∧
      (∃ dd, st3.dispatchers = [dd] ∧
        gum_code_deflector_dispatcher_lookup dd d2.return_address =
          some d2.target) ∧
      gum_code_deflector_free_impl st3 mem1 d2.id = some (st4, mem4, [7]) ∧
      st4.dispatchers = [] ∧
      (∀ x, mem4 x = gumC7mem x) :=
  gum_spec_c7 { rwx_supported := true, page_size := 16, arm := false }
    gumC7mem 100 7 [] { near_address := 108, max_distance := 0 }
    { near_address := 108, max_distance := 0 } 11 21 12 22
    (gum_code_allocator_init { rwx_supported := true, page_size := 16, arm := false } 8)
    rfl (by decide) (by decide) (by decide) (by decide) (by decide)

end FridaGum
